import Mathlib

/-!
Verification of `component_vis/outliers.py` (tensorly/tlvis).

The module is shallowly embedded over exact rational arithmetic (`ℚ`): numpy
floating-point arrays become functions into `ℚ`, matrices become Mathlib
matrices over `ℚ`, and the one function whose formulas are irrational
(`get_slab_sse_outlier_threshold`, which takes a square root) is embedded over
`ℝ`.  External collaborators (`construct_cp_tensor` from `factor_tools`, the
scipy quantile functions `stats.f.isf` / `stats.chi2.isf`) are taken as
explicit function parameters of the embedded definitions.  Python exceptions
become `Except` values carrying the raised message or a structured error that
records exactly the data interpolated into the raised message.
-/

namespace ComponentVis

open Matrix

/-! ## Leverage calculator (`_compute_leverage`, lines 13-16)

`np.linalg.solve(M, B)` returns the solution of `M X = B`, i.e. `M⁻¹ B` when
`M` is invertible.  Over the exact field `ℚ` we embed it by the adjugate
formula `det(M)⁻¹ • (adj(M) * B)`, which agrees with `M⁻¹ * B` unconditionally
over a field (both are zero maps when `det M = 0`, where the Python call would
raise `LinAlgError`). -/

/-- Embedding of `np.linalg.solve(M, B)` over `ℚ` via the adjugate formula. -/
def npSolve {m k : ℕ} (M : Matrix (Fin m) (Fin m) ℚ) (B : Matrix (Fin m) (Fin k) ℚ) :
    Matrix (Fin m) (Fin k) ℚ :=
  (M.det)⁻¹ • (M.adjugate * B)

/-- `npSolve M B` is multiplication by the Mathlib matrix inverse: over a field
`M⁻¹ = det(M)⁻¹ • adj(M)` holds whether or not `M` is invertible. -/
theorem npSolve_eq {m k : ℕ} (M : Matrix (Fin m) (Fin m) ℚ)
    (B : Matrix (Fin m) (Fin k) ℚ) : npSolve M B = M⁻¹ * B := by
  rw [npSolve, Matrix.inv_def, Ring.inverse_eq_inv', Matrix.smul_mul]

/-- Embedding of `_compute_leverage` (lines 13-16):
`np.diag(A @ np.linalg.solve(A.T @ A, A.T))`. -/
def compute_leverage {n r : ℕ} (A : Matrix (Fin n) (Fin r) ℚ) : Fin n → ℚ :=
  fun i => (A * npSolve (Aᵀ * A) Aᵀ) i i

/-- C1: for a factor matrix `A` with `n` rows and `r < n` columns such that
`AᵀA` is invertible, every leverage score returned by `_compute_leverage`
lies in `[0, 1]` and the scores sum to `r`, the number of columns. -/
theorem leverage_scores_bounded_and_sum_to_rank {n r : ℕ}
    (A : Matrix (Fin n) (Fin r) ℚ) (hr : r < n) (hA : IsUnit (Aᵀ * A).det) :
    (∀ i, 0 ≤ compute_leverage A i ∧ compute_leverage A i ≤ 1) ∧
    (∑ i, compute_leverage A i) = (r : ℚ) := by
  set P : Matrix (Fin n) (Fin n) ℚ := A * ((Aᵀ * A)⁻¹ * Aᵀ) with hPdef
  have hlev : ∀ i, compute_leverage A i = P i i := by
    intro i; rw [compute_leverage, npSolve_eq, hPdef]
  have hsymm : Pᵀ = P := by
    simp only [hPdef, Matrix.transpose_mul, Matrix.transpose_transpose,
      Matrix.transpose_nonsing_inv, Matrix.mul_assoc]
  have hidem : P * P = P := by
    rw [hPdef]
    simp only [Matrix.mul_assoc]
    rw [← Matrix.mul_assoc Aᵀ A, ← Matrix.mul_assoc (Aᵀ * A)⁻¹,
      Matrix.nonsing_inv_mul _ hA, Matrix.one_mul]
  have hdiag : ∀ i, P i i = ∑ j, (P i j) ^ 2 := by
    intro i
    have h1 : (P * P) i i = P i i := by rw [hidem]
    rw [Matrix.mul_apply] at h1
    rw [← h1]
    refine Finset.sum_congr rfl ?_
    intro j _
    have h2 : P j i = P i j := by
      have h3 := congrFun (congrFun hsymm j) i
      rw [Matrix.transpose_apply] at h3
      exact h3.symm
    rw [h2, pow_two]
  have hnonneg : ∀ i, 0 ≤ P i i := by
    intro i; rw [hdiag i]; exact Finset.sum_nonneg fun j _ => sq_nonneg _
  have hle : ∀ i, P i i ≤ 1 := by
    intro i
    have hsq : (P i i) ^ 2 ≤ P i i := by
      conv_rhs => rw [hdiag i]
      exact Finset.single_le_sum (f := fun j => (P i j) ^ 2)
        (fun j _ => sq_nonneg _) (Finset.mem_univ i)
    nlinarith [hnonneg i, hsq, sq_nonneg (P i i - 1)]
  have htrace : (∑ i, P i i) = (r : ℚ) := by
    have h1 : (∑ i, P i i) = Matrix.trace P := by
      simp [Matrix.trace, Matrix.diag_apply]
    rw [h1, hPdef, Matrix.trace_mul_comm, Matrix.mul_assoc,
      Matrix.nonsing_inv_mul _ hA, Matrix.trace_one, Fintype.card_fin]
  refine ⟨fun i => ?_, ?_⟩
  · rw [hlev i]; exact ⟨hnonneg i, hle i⟩
  · calc (∑ i, compute_leverage A i) = ∑ i, P i i :=
        Finset.sum_congr rfl fun i _ => hlev i
    _ = (r : ℚ) := htrace

/-- Concrete full-column-rank 2 by 1 factor matrix witnessing the leverage theorem. -/
def leverageWitnessA : Matrix (Fin 2) (Fin 1) ℚ := fun _ _ => 1

/-- Witness for the leverage theorem: the all-ones 2 by 1 matrix has `r = 1 < 2 = n`,
`AᵀA = [[2]]` is invertible, and the theorem's conclusion holds for it. -/
theorem leverage_scores_bounded_and_sum_to_rank_witness :
    1 < 2 ∧ IsUnit ((leverageWitnessAᵀ * leverageWitnessA).det) ∧
    ((∀ i, 0 ≤ compute_leverage leverageWitnessA i ∧
        compute_leverage leverageWitnessA i ≤ 1) ∧
      (∑ i, compute_leverage leverageWitnessA i) = ((1 : ℕ) : ℚ)) := by
  have hdet : (leverageWitnessAᵀ * leverageWitnessA).det = 2 := by
    simp [leverageWitnessA, Matrix.det_fin_one, Matrix.mul_apply, Fin.sum_univ_two]
  have hA : IsUnit ((leverageWitnessAᵀ * leverageWitnessA).det) := by
    rw [hdet]; exact isUnit_iff_ne_zero.mpr (by norm_num)
  exact ⟨by norm_num, hA,
    leverage_scores_bounded_and_sum_to_rank leverageWitnessA (by norm_num) hA⟩

/-! ## Slab residual calculator: numeric core (`_compute_slabwise_sse`, lines 19-29)

A numpy ndarray is embedded as a shape (list of axis lengths) together with a
total function from multi-indices (lists of naturals) to `ℚ`; only in-range
multi-indices, enumerated by `tuples`, are ever read.  The `axis` argument of
`_compute_slabwise_sse` is a set of kept axis positions (the source converts a
lone integer into a singleton set); `reduction_axis` is the complementary
positions of `range(true.ndim)`, and `.sum(axis=reduction_axis)` sums the
squared differences over the reduced positions, keeping the kept axes in
their original order. -/

/-- All multi-indices of an ndarray of the given shape, in row-major order. -/
def tuples : List ℕ → List (List ℕ)
  | [] => [[]]
  | n :: ns => ((List.range n).map fun i => (tuples ns).map fun t => i :: t).flatten

/-- The elements of `xs` whose position (counting from `pos`) lies in `axisSet`,
in order: the kept axes of a shape, as produced by numpy's axis reduction. -/
def keptList {α : Type} (axisSet : List ℕ) : ℕ → List α → List α
  | _, [] => []
  | pos, x :: xs =>
    if pos ∈ axisSet then x :: keptList axisSet (pos + 1) xs
    else keptList axisSet (pos + 1) xs

/-- The elements of `xs` whose position (counting from `pos`) is not in
`axisSet`: the embedding of `reduction_axis = tuple(i for i in range(true.ndim)
if i not in axis)` applied to a shape. -/
def reducedList {α : Type} (axisSet : List ℕ) : ℕ → List α → List α
  | _, [] => []
  | pos, x :: xs =>
    if pos ∈ axisSet then reducedList axisSet (pos + 1) xs
    else x :: reducedList axisSet (pos + 1) xs

/-- Reassemble a full multi-index over a shape of the given length from a
kept-axes multi-index `kt` and a reduced-axes multi-index `rt`. -/
def mergeTuple (axisSet : List ℕ) : ℕ → List ℕ → List ℕ → List ℕ → List ℕ
  | _, [], _, _ => []
  | pos, _ :: ns, kt, rt =>
    if pos ∈ axisSet then kt.headD 0 :: mergeTuple axisSet (pos + 1) ns kt.tail rt
    else rt.headD 0 :: mergeTuple axisSet (pos + 1) ns kt rt.tail

/-- A numpy ndarray over exact rationals: a shape and a value function on
multi-indices. -/
structure NDData where
  shape : List ℕ
  val : List ℕ → ℚ

/-- The slabwise sum of squared errors `((estimated - true) ** 2).sum(axis=reduction_axis)`
(line 25): an array over the kept axes whose entry at `kt` sums the squared
difference over all reduced-axes indices. -/
def sseND (axisSet : List ℕ) (est tru : NDData) : NDData where
  shape := keptList axisSet 0 tru.shape
  val := fun kt => ((tuples (reducedList axisSet 0 tru.shape)).map fun rt =>
    (est.val (mergeTuple axisSet 0 tru.shape kt rt) -
      tru.val (mergeTuple axisSet 0 tru.shape kt rt)) ^ 2).sum

/-- `SSE.sum()`: the total of all entries of an ndarray. -/
def ndTotal (x : NDData) : ℚ := ((tuples x.shape).map x.val).sum

/-- `SSE / SSE.sum()` (line 27). -/
def normaliseND (x : NDData) : NDData where
  shape := x.shape
  val := fun t => x.val t / ndTotal x

/-- Embedding of `_compute_slabwise_sse` (lines 19-29) on raw arrays. -/
def slabwiseSseND (axisSet : List ℕ) (normalise : Bool) (est tru : NDData) : NDData :=
  let SSE := sseND axisSet est tru
  if normalise then normaliseND SSE else SSE

/-- Summing a pointwise sum of two functions over a list splits into two sums. -/
theorem sum_map_add {α : Type} (l : List α) (f g : α → ℚ) :
    (l.map fun x => f x + g x).sum = (l.map f).sum + (l.map g).sum := by
  induction l with
  | nil => simp
  | cons x xs ih => simp only [List.map_cons, List.sum_cons, ih]; ring

/-- Summing a pointwise quotient over a list is the quotient of the sum. -/
theorem sum_map_div {α : Type} (l : List α) (f : α → ℚ) (c : ℚ) :
    (l.map fun x => f x / c).sum = (l.map f).sum / c := by
  induction l with
  | nil => simp
  | cons x xs ih => simp only [List.map_cons, List.sum_cons, ih, add_div]

/-- Interchanging two nested list sums. -/
theorem sum_swap {α β : Type} (l₁ : List α) (l₂ : List β) (F : α → β → ℚ) :
    (l₁.map fun x => (l₂.map fun y => F x y).sum).sum =
    (l₂.map fun y => (l₁.map fun x => F x y).sum).sum := by
  induction l₁ with
  | nil => simp
  | cons x xs ih =>
    simp only [List.map_cons, List.sum_cons, ih]
    rw [sum_map_add]

/-- Pushing a sum over `tuples (n :: ns)` through the leading axis. -/
theorem tuples_cons_sum (n : ℕ) (ns : List ℕ) (f : List ℕ → ℚ) :
    ((tuples (n :: ns)).map f).sum =
    ((List.range n).map fun i => ((tuples ns).map fun t => f (i :: t)).sum).sum := by
  rw [tuples, List.map_flatten, List.sum_flatten, List.map_map, List.map_map]
  simp only [Function.comp_def, List.map_map]

/-- `tuples` enumerates exactly `shape.prod` multi-indices. -/
theorem tuples_length : ∀ shape : List ℕ, (tuples shape).length = shape.prod := by
  intro shape
  induction shape with
  | nil => rfl
  | cons n ns ih =>
    rw [tuples, List.length_flatten, List.map_map]
    simp [Function.comp_def, List.length_map, ih, List.map_const', List.sum_replicate,
      List.length_range, smul_eq_mul, List.prod_cons]

/-- A sum over all multi-indices of a shape splits as a double sum over the
kept-axes and reduced-axes multi-indices, recombined by `mergeTuple`: this is
the reindexing performed by `.sum(axis=reduction_axis)`. -/
theorem sum_tuples_split (A : List ℕ) :
    ∀ (shape : List ℕ) (pos : ℕ) (f : List ℕ → ℚ),
    ((tuples shape).map f).sum =
      ((tuples (keptList A pos shape)).map fun kt =>
        ((tuples (reducedList A pos shape)).map fun rt =>
          f (mergeTuple A pos shape kt rt)).sum).sum := by
  intro shape
  induction shape with
  | nil =>
    intro pos f
    simp [tuples, keptList, reducedList, mergeTuple]
  | cons n ns ih =>
    intro pos f
    by_cases hA : pos ∈ A
    · have hk : keptList A pos (n :: ns) = n :: keptList A (pos + 1) ns := by
        simp [keptList, hA]
      have hr2 : reducedList A pos (n :: ns) = reducedList A (pos + 1) ns := by
        simp [reducedList, hA]
      have hm : ∀ (i : ℕ) (kt rt : List ℕ), mergeTuple A pos (n :: ns) (i :: kt) rt
          = i :: mergeTuple A (pos + 1) ns kt rt := by
        intro i kt rt; simp [mergeTuple, hA]
      rw [tuples_cons_sum, hk, hr2, tuples_cons_sum]
      refine congrArg List.sum (List.map_congr_left fun i _ => ?_)
      simp only [hm]
      exact ih (pos + 1) (fun t => f (i :: t))
    · have hk : keptList A pos (n :: ns) = keptList A (pos + 1) ns := by
        simp [keptList, hA]
      have hr2 : reducedList A pos (n :: ns) = n :: reducedList A (pos + 1) ns := by
        simp [reducedList, hA]
      have hm : ∀ (i : ℕ) (kt rt : List ℕ), mergeTuple A pos (n :: ns) kt (i :: rt)
          = i :: mergeTuple A (pos + 1) ns kt rt := by
        intro i kt rt; simp [mergeTuple, hA]
      rw [tuples_cons_sum, hk, hr2]
      have hinner : ∀ kt : List ℕ, ((tuples (n :: reducedList A (pos + 1) ns)).map fun rt =>
            f (mergeTuple A pos (n :: ns) kt rt)).sum
          = ((List.range n).map fun i =>
              ((tuples (reducedList A (pos + 1) ns)).map fun rt =>
                f (i :: mergeTuple A (pos + 1) ns kt rt)).sum).sum := by
        intro kt
        rw [tuples_cons_sum]
        simp only [hm]
      rw [congrArg List.sum (List.map_congr_left fun kt _ => hinner kt)]
      conv_rhs => rw [sum_swap]
      refine congrArg List.sum (List.map_congr_left fun i _ => ?_)
      exact ih (pos + 1) (fun t => f (i :: t))

/-- C2: for same-shaped arrays whose difference is not identically zero, the
normalised slabwise SSE sums to exactly 1 over the kept axes, and with the
flag disabled `_compute_slabwise_sse` returns the raw sums of squared
differences. -/
theorem slabwise_sse_normalisation (axisSet : List ℕ) (est tru : NDData)
    (hsh : est.shape = tru.shape)
    (hne : ∃ t ∈ tuples tru.shape, est.val t ≠ tru.val t) :
    ((tuples (slabwiseSseND axisSet true est tru).shape).map
      (slabwiseSseND axisSet true est tru).val).sum = 1 ∧
    slabwiseSseND axisSet false est tru = sseND axisSet est tru := by
  constructor
  · have hsplit := sum_tuples_split axisSet tru.shape 0
      (fun t => (est.val t - tru.val t) ^ 2)
    obtain ⟨t0, ht0, hneq⟩ := hne
    set S : ℚ := ((tuples tru.shape).map fun t => (est.val t - tru.val t) ^ 2).sum with hS
    have hpos : 0 < S := by
      have hmem : ((est.val t0 - tru.val t0) ^ 2) ∈
          (tuples tru.shape).map fun t => (est.val t - tru.val t) ^ 2 :=
        List.mem_map_of_mem _ ht0
      have hnn : ∀ x ∈ (tuples tru.shape).map fun t => (est.val t - tru.val t) ^ 2,
          0 ≤ x := by
        intro x hx
        obtain ⟨t, _, rfl⟩ := List.mem_map.mp hx
        exact sq_nonneg _
      have hle := List.single_le_sum hnn _ hmem
      have h0 : est.val t0 - tru.val t0 ≠ 0 := sub_ne_zero.mpr hneq
      have hgt : 0 < (est.val t0 - tru.val t0) ^ 2 := by positivity
      rw [hS]
      linarith
    have htot : ndTotal (sseND axisSet est tru) = S := hsplit.symm
    show ((tuples (keptList axisSet 0 tru.shape)).map fun kt =>
        (sseND axisSet est tru).val kt / ndTotal (sseND axisSet est tru)).sum = 1
    rw [sum_map_div]
    have hself : ((tuples (keptList axisSet 0 tru.shape)).map
        (sseND axisSet est tru).val).sum = ndTotal (sseND axisSet est tru) := rfl
    rw [hself, htot]
    exact div_self (ne_of_gt hpos)
  · rfl

/-- Witness for the normalised-SSE theorem at a concrete pair of one-axis
arrays of shape `[2]` with constant values 1 and 0. -/
theorem slabwise_sse_normalisation_witness :
    ((⟨[2], fun _ => 1⟩ : NDData).shape = (⟨[2], fun _ => 0⟩ : NDData).shape) ∧
    (∃ t ∈ tuples (⟨[2], fun _ => 0⟩ : NDData).shape,
      (⟨[2], fun _ => 1⟩ : NDData).val t ≠ (⟨[2], fun _ => 0⟩ : NDData).val t) ∧
    (((tuples (slabwiseSseND [0] true ⟨[2], fun _ => 1⟩ ⟨[2], fun _ => 0⟩).shape).map
        (slabwiseSseND [0] true ⟨[2], fun _ => 1⟩ ⟨[2], fun _ => 0⟩).val).sum = 1 ∧
      slabwiseSseND [0] false ⟨[2], fun _ => 1⟩ ⟨[2], fun _ => 0⟩ =
        sseND [0] ⟨[2], fun _ => 1⟩ ⟨[2], fun _ => 0⟩) :=
  ⟨rfl, by decide,
    slabwise_sse_normalisation [0] ⟨[2], fun _ => 1⟩ ⟨[2], fun _ => 0⟩ rfl (by decide)⟩

/-! ## Threshold estimators (lines 188-371 and 374-417)

`scipy.stats.f.isf` and `scipy.stats.chi2.isf` are external collaborators:
they enter the embedding as explicit function parameters (`fIsf`, `chi2Isf`)
with the same argument order as the scipy calls.  Raised `ValueError`s become
`Except.error` carrying the exact message string built by the source. -/

/-- Embedding of Python `str.lower()` (applied to `method` at line 339). -/
def pyLower (s : String) : String := String.mk (s.data.map Char.toLower)

/-- Embedding of `get_leverage_outlier_threshold` (lines 188, 336-371):
`num_samples = len(leverage_scores)`, `num_components = np.sum(leverage_scores)`,
then dispatch on the lower-cased method name.  The Python default for `method`
is the string `"p_value"` (line 188). -/
def get_leverage_outlier_threshold (fIsf : ℚ → ℚ → ℚ → ℚ) (leverage_scores : List ℚ)
    (method : String) (p_value : ℚ) : Except String ℚ :=
  let num_samples : ℕ := leverage_scores.length
  let num_components : ℚ := leverage_scores.sum
  let m := pyLower method
  if m = "huber lower" then .ok 0.2
  else if m = "huber higher" then .ok 0.5
  else if m = "hw lower" then .ok (2 * num_components / (num_samples : ℚ))
  else if m = "hw higher" then .ok (3 * num_components / (num_samples : ℚ))
  else if m = "p-value" then
    let n : ℚ := (num_samples : ℚ)
    let p : ℚ := num_components
    if p ≤ 1 then .error "Cannot use P-value when there is only one component."
    else if n ≤ p then
      .error "Cannot use P-value when there are fewer samples than components."
    else
      let F := fIsf p_value (p - 1) (n - p)
      let F_scale := F * (p - 1) / (n - p)
      .ok ((F_scale + 1 / n) / (1 + F_scale))
  else if m = "hotelling" then
    let I : ℚ := (num_samples : ℚ)
    let R : ℚ := num_components
    let F := fIsf p_value R (I - R - 1)
    let B := R / (I - R - 1) * F / (1 + R / (I - R - 1) * F)
    .ok (B * (I - 1) / I)
  else
    .error ("Method must be one of 'huber lower', 'huber higher', 'hw lower' or 'hw higher', "
      ++ "'p-value', or 'hotelling' not " ++ m)

/-- `np.mean(x)` over `ℝ`. -/
noncomputable def pyMean (xs : List ℝ) : ℝ := xs.sum / (xs.length : ℝ)

/-- `np.std(x, ddof=ddof)` over `ℝ`: the square root of the sum of squared
deviations from the mean divided by `n - ddof`. -/
noncomputable def pyStd (xs : List ℝ) (ddof : ℕ) : ℝ :=
  Real.sqrt ((xs.map fun x => (x - pyMean xs) ^ 2).sum / ((xs.length : ℝ) - (ddof : ℝ)))

/-- Embedding of `get_slab_sse_outlier_threshold` (lines 374-417); the method
string is dispatched as written (no lower-casing in this function), and its
Python default is the string `"p_value"` (line 374). -/
noncomputable def get_slab_sse_outlier_threshold (chi2Isf : ℝ → ℝ → ℝ)
    (slab_sse : List ℝ) (method : String) (p_value : ℝ) (ddof : ℕ) : Except String ℝ :=
  let std := pyStd slab_sse ddof
  let mean := pyMean slab_sse
  if method = "two sigma" then .ok (std * 2)
  else if method = "p-value" then
    let g := std * std / (2 * mean)
    let h := mean / g
    .ok (chi2Isf p_value h * g)
  else
    .error ("Method must be one of 'two sigma' and 'p-value', not '" ++ method ++ "'.")

/-- C5: the Huber thresholds are the constants 0.2 and 0.5 regardless of the
data, and the Hoaglin-Welch thresholds are `2 r / n` and `3 r / n` where `n`
is the vector length and `r` its entry sum. -/
theorem leverage_threshold_fixed_and_hw (fIsf : ℚ → ℚ → ℚ → ℚ) (scores : List ℚ)
    (p_value : ℚ) (hn : scores ≠ []) :
    get_leverage_outlier_threshold fIsf scores "huber lower" p_value = .ok 0.2 ∧
    get_leverage_outlier_threshold fIsf scores "huber higher" p_value = .ok 0.5 ∧
    get_leverage_outlier_threshold fIsf scores "hw lower" p_value =
      .ok (2 * scores.sum / (scores.length : ℚ)) ∧
    get_leverage_outlier_threshold fIsf scores "hw higher" p_value =
      .ok (3 * scores.sum / (scores.length : ℚ)) := by
  refine ⟨?_, ?_, ?_, ?_⟩ <;>
    simp +decide [get_leverage_outlier_threshold, pyLower]

/-- Witness for the fixed and Hoaglin-Welch thresholds on a 10-sample vector
summing to 2: `hw lower` gives 0.4 and `hw higher` gives 0.6 exactly. -/
theorem leverage_threshold_fixed_and_hw_witness :
    ([(1 : ℚ), 1, 0, 0, 0, 0, 0, 0, 0, 0] ≠ []) ∧
    get_leverage_outlier_threshold (fun _ _ _ => 0) [(1 : ℚ), 1, 0, 0, 0, 0, 0, 0, 0, 0]
      "hw lower" 0.05 = .ok 0.4 ∧
    get_leverage_outlier_threshold (fun _ _ _ => 0) [(1 : ℚ), 1, 0, 0, 0, 0, 0, 0, 0, 0]
      "hw higher" 0.05 = .ok 0.6 := by
  have h := leverage_threshold_fixed_and_hw (fun _ _ _ => 0)
    [(1 : ℚ), 1, 0, 0, 0, 0, 0, 0, 0, 0] 0.05 (by simp)
  refine ⟨by simp, ?_, ?_⟩
  · rw [h.2.2.1]; norm_num
  · rw [h.2.2.2]; norm_num

/-- C6: with method `"p-value"`, the leverage threshold fails exactly when
`r ≤ 1` or `n ≤ r` (`r` the entry sum, `n` the length), and otherwise returns
`(F_scale + 1/n) / (1 + F_scale)` with `F_scale = F (r-1)/(n-r)` and `F` the
`stats.f.isf(p_value, r-1, n-r)` quantile. -/
theorem leverage_threshold_p_value (fIsf : ℚ → ℚ → ℚ → ℚ) (scores : List ℚ)
    (p_value : ℚ) :
    ((∃ e, get_leverage_outlier_threshold fIsf scores "p-value" p_value = .error e) ↔
      (scores.sum ≤ 1 ∨ (scores.length : ℚ) ≤ scores.sum)) ∧
    (1 < scores.sum → scores.sum < (scores.length : ℚ) →
      get_leverage_outlier_threshold fIsf scores "p-value" p_value =
        .ok ((fIsf p_value (scores.sum - 1) ((scores.length : ℚ) - scores.sum) *
              (scores.sum - 1) / ((scores.length : ℚ) - scores.sum) +
              1 / (scores.length : ℚ)) /
            (1 + fIsf p_value (scores.sum - 1) ((scores.length : ℚ) - scores.sum) *
              (scores.sum - 1) / ((scores.length : ℚ) - scores.sum)))) := by
  have hred : get_leverage_outlier_threshold fIsf scores "p-value" p_value =
      (if scores.sum ≤ 1 then
        .error "Cannot use P-value when there is only one component."
      else if (scores.length : ℚ) ≤ scores.sum then
        .error "Cannot use P-value when there are fewer samples than components."
      else
        .ok ((fIsf p_value (scores.sum - 1) ((scores.length : ℚ) - scores.sum) *
              (scores.sum - 1) / ((scores.length : ℚ) - scores.sum) +
              1 / (scores.length : ℚ)) /
            (1 + fIsf p_value (scores.sum - 1) ((scores.length : ℚ) - scores.sum) *
              (scores.sum - 1) / ((scores.length : ℚ) - scores.sum)))) := by
    simp +decide [get_leverage_outlier_threshold, pyLower]
  rw [hred]
  constructor
  · constructor
    · rintro ⟨e, he⟩
      split_ifs at he with h1 h2
      · exact Or.inl h1
      · exact Or.inr h2
    · intro h
      split_ifs with h1 h2
      · exact ⟨_, rfl⟩
      · exact ⟨_, rfl⟩
      · rcases h with h | h
        · exact absurd h h1
        · exact absurd h h2
  · intro hgt hlt
    rw [if_neg (by linarith), if_neg (by linarith)]

/-- Witness for the p-value leverage threshold at the vector `[1,1,0,0]`
(`n = 4`, `r = 2`) with the quantile function constantly 7: the threshold is
`(7/2 + 1/4) / (1 + 7/2) = 5/6`. -/
theorem leverage_threshold_p_value_witness :
    (1 : ℚ) < List.sum [(1 : ℚ), 1, 0, 0] ∧
    List.sum [(1 : ℚ), 1, 0, 0] < (List.length [(1 : ℚ), 1, 0, 0] : ℚ) ∧
    get_leverage_outlier_threshold (fun _ _ _ => 7) [(1 : ℚ), 1, 0, 0] "p-value"
      0.05 = .ok (5 / 6) := by
  have h1 : (1 : ℚ) < List.sum [(1 : ℚ), 1, 0, 0] := by norm_num
  have h2 : List.sum [(1 : ℚ), 1, 0, 0] < (List.length [(1 : ℚ), 1, 0, 0] : ℚ) := by
    norm_num
  refine ⟨h1, h2, ?_⟩
  rw [(leverage_threshold_p_value (fun _ _ _ => 7) [(1 : ℚ), 1, 0, 0] 0.05).2 h1 h2]
  norm_num

/-- C9: with method `"hotelling"` and `n = r + 1` (so the degrees-of-freedom
term `n - r - 1` is zero), the source has no guard: no error is raised and a
value produced by the division by zero is returned (`.ok 0` under the
division-by-zero convention of `ℚ`; in numpy the division emits `inf`/`nan`
and scipy returns `nan`, likewise without raising). -/
theorem hotelling_threshold_unguarded (fIsf : ℚ → ℚ → ℚ → ℚ) (scores : List ℚ)
    (p_value : ℚ) (hdeg : scores.sum = (scores.length : ℚ) - 1) :
    get_leverage_outlier_threshold fIsf scores "hotelling" p_value = .ok 0 := by
  have hz : (scores.length : ℚ) - scores.sum - 1 = 0 := by rw [hdeg]; ring
  simp +decide [get_leverage_outlier_threshold, pyLower, hz]

/-- Witness for the unguarded Hotelling case at the leverage vector `[1,1,0]`
(`n = 3`, `r = 2 = n - 1`). -/
theorem hotelling_threshold_unguarded_witness :
    List.sum [(1 : ℚ), 1, 0] = (List.length [(1 : ℚ), 1, 0] : ℚ) - 1 ∧
    get_leverage_outlier_threshold (fun _ _ _ => 37) [(1 : ℚ), 1, 0] "hotelling"
      0.05 = .ok 0 := by
  have hdeg : List.sum [(1 : ℚ), 1, 0] = (List.length [(1 : ℚ), 1, 0] : ℚ) - 1 := by
    norm_num
  exact ⟨hdeg, hotelling_threshold_unguarded (fun _ _ _ => 37) [(1 : ℚ), 1, 0] 0.05 hdeg⟩

/-- C10: both threshold estimators default their `method` argument to the
string `"p_value"`, which no dispatch branch recognises (the recognised
spelling is `"p-value"`), so calling either with the default method always
raises the unknown-method error. -/
theorem default_method_never_matches (fIsf : ℚ → ℚ → ℚ → ℚ) (chi2Isf : ℝ → ℝ → ℝ)
    (scores : List ℚ) (sse : List ℝ) (p : ℚ) (p2 : ℝ) (ddof : ℕ) :
    get_leverage_outlier_threshold fIsf scores "p_value" p =
      .error ("Method must be one of 'huber lower', 'huber higher', 'hw lower' or " ++
        "'hw higher', 'p-value', or 'hotelling' not p_value") ∧
    get_slab_sse_outlier_threshold chi2Isf sse "p_value" p2 ddof =
      .error ("Method must be one of 'two sigma' and 'p-value', not 'p_value'.") := by
  constructor
  · simp +decide [get_leverage_outlier_threshold, pyLower]
  · simp +decide [get_slab_sse_outlier_threshold]

/-! ## Labelled tensors and `compute_slabwise_sse` (lines 32-91)

An xarray `DataArray` is embedded as its underlying ndarray plus axis names
(`dims`) and, positionally aligned with them, one coordinate value sequence
per axis (xarray keys coordinates by the axis name; since a `DataArray`'s dims
are distinct, the by-name lookup of the source loop is the aligned positional
lookup used here).  Raised `ValueError`s become structured errors carrying
exactly the data interpolated into the message f-strings. -/

/-- Structured record of a `ValueError` raised by `compute_slabwise_sse`. -/
inductive SseError where
  | dimsMismatch (estDims truDims : List String)
  | lengthMismatch (dim : String) (trueLen estLen : ℕ)
  | coordMismatch (dim : String)
  | broadcastError
deriving DecidableEq

/-- The message of each raised `ValueError`, mirroring the f-strings at lines
69-71, 75-78 and 81 (including the source's spelling "estiamted" at line 76);
list and numeric payloads are rendered with `toString` where Python renders
the interpolated tuple or integer. -/
def sseErrorMessage : SseError → String
  | .dimsMismatch estDims truDims =>
      "Dimensions of estimated and true tensor must be equal, they are " ++
        toString estDims ++ " and " ++ toString truDims ++ ", respectively."
  | .lengthMismatch dim trueLen estLen =>
      "The dimension " ++ dim ++
        " has different length for the true and estiamted tensor. " ++
        "The true tensor has length " ++ toString trueLen ++
        " and the estimated tensor has length " ++ toString estLen ++ "."
  | .coordMismatch dim =>
      "The dimension " ++ dim ++
        " has different coordinates for the true and estimated tensor."
  | .broadcastError => "operands could not be broadcast together"

/-- A tensor argument of `compute_slabwise_sse`: a raw numpy ndarray or a
labelled xarray DataArray. -/
inductive PyTensor where
  | raw (a : NDData)
  | labeled (a : NDData) (dims : List String) (coords : List (List ℚ))

/-- The underlying ndarray of either representation. -/
def PyTensor.data : PyTensor → NDData
  | .raw a => a
  | .labeled a _ _ => a

/-- The `is_xarray` predicate from `xarray_wrapper`. -/
def isXarray : PyTensor → Bool
  | .raw _ => false
  | .labeled _ _ _ => true

/-- The per-dimension validation loop (lines 73-81): walk the dims in order;
for each, first compare the coordinate-sequence lengths, then the coordinate
values, raising at the first mismatch. -/
def checkDims : List String → List (List ℚ) → List (List ℚ) → Option SseError
  | dim :: dims, tc :: tcs, ec :: ecs =>
    if tc.length ≠ ec.length then some (.lengthMismatch dim tc.length ec.length)
    else if tc ≠ ec then some (.coordMismatch dim)
    else checkDims dims tcs ecs
  | _, _, _ => none

/-- The validation block of `compute_slabwise_sse` (lines 66-81), run only
when both tensors are labelled: dims tuples must be equal, then each
dimension's coordinates are compared (true tensor's first, as in
`len(true.coords[dim]) != len(estimated.coords[dim])`). -/
def validateLabels (estDims truDims : List String)
    (estCoords truCoords : List (List ℚ)) : Option SseError :=
  if estDims ≠ truDims then some (.dimsMismatch estDims truDims)
  else checkDims estDims truCoords estCoords

/-- The result of `compute_slabwise_sse`: a raw ndarray, or a labelled
DataArray carrying its `name` and the kept dims and coords. -/
inductive SseResult where
  | raw (a : NDData)
  | labeled (a : NDData) (name : String) (dims : List String) (coords : List (List ℚ))

/-- Whether the result is an xarray object. -/
def SseResult.isLabeled : SseResult → Bool
  | .raw _ => false
  | .labeled _ _ _ _ => true

/-- `_LEVERAGE_NAME` (line 9). -/
def leverageName : String := "Leverage score"

/-- `_SLABWISE_SSE_NAME` (line 10). -/
def sseName : String := "Slabwise SSE"

/-- Embedding of `compute_slabwise_sse` (lines 32-91).  When both inputs are
labelled, dims and coordinates are validated first.  The subtraction
`estimated - true` requires equal shapes (numpy/xarray broadcasting is
modelled for exactly matching shapes, the only case the validated paths and
the claims reach); its result is an xarray exactly when either operand is
one, in which case the returned SSE carries the name "Slabwise SSE"
(line 90) and the kept dims and coords of the labelled operand (the true
tensor's when it is labelled, coinciding with the estimated tensor's after
validation when both are). -/
def compute_slabwise_sse_py (est tru : PyTensor) (normalise : Bool)
    (axisSet : List ℕ) : Except SseError SseResult :=
  let check : Option SseError :=
    match est, tru with
    | .labeled _ ed ec, .labeled _ td tc => validateLabels ed td ec tc
    | _, _ => none
  match check with
  | some e => .error e
  | none =>
    if est.data.shape ≠ tru.data.shape then .error .broadcastError
    else
      let s := slabwiseSseND axisSet normalise est.data tru.data
      match est, tru with
      | .raw _, .raw _ => .ok (.raw s)
      | .labeled _ ed ec, .raw _ =>
          .ok (.labeled s sseName (keptList axisSet 0 ed) (keptList axisSet 0 ec))
      | _, .labeled _ td tc =>
          .ok (.labeled s sseName (keptList axisSet 0 td) (keptList axisSet 0 tc))

/-- If both coordinate lists are aligned with the dims and differ anywhere,
the validation loop raises, and the raised error records an axis at which the
coordinates genuinely differ: with the two lengths when they differ, as a
bare coordinate mismatch when the lengths agree. -/
theorem checkDims_spec :
    ∀ (ds : List String) (tcs ecs : List (List ℚ)),
      tcs.length = ds.length → ecs.length = ds.length → tcs ≠ ecs →
      ∃ e, checkDims ds tcs ecs = some e ∧
        ∃ i, i < ds.length ∧ tcs.getD i [] ≠ ecs.getD i [] ∧
          ((e = .lengthMismatch (ds.getD i "") (tcs.getD i []).length
              (ecs.getD i []).length ∧
            (tcs.getD i []).length ≠ (ecs.getD i []).length) ∨
          (e = .coordMismatch (ds.getD i "") ∧
            (tcs.getD i []).length = (ecs.getD i []).length)) := by
  intro ds
  induction ds with
  | nil =>
    intro tcs ecs h1 h2 hne
    simp only [List.length_nil, List.length_eq_zero] at h1 h2
    exact absurd (h1.trans h2.symm) hne
  | cons d ds ih =>
    intro tcs ecs h1 h2 hne
    match tcs, ecs with
    | tc :: tcs', ec :: ecs' =>
      simp only [List.length_cons, Nat.succ.injEq] at h1 h2
      by_cases hl : tc.length = ec.length
      · by_cases hv : tc = ec
        · have hne' : tcs' ≠ ecs' := by
            intro h; exact hne (by rw [hv, h])
          obtain ⟨e, hce, i, hi, hneq, hdisj⟩ := ih tcs' ecs' h1 h2 hne'
          refine ⟨e, ?_, i + 1, by simp only [List.length_cons]; omega, ?_, ?_⟩
          · simp only [checkDims, if_neg (not_not_intro hl), if_neg (not_not_intro hv)]
            exact hce
          · simpa using hneq
          · simpa using hdisj
        · refine ⟨.coordMismatch d, ?_, 0, by simp only [List.length_cons]; omega, by simpa using hv, Or.inr ⟨rfl, hl⟩⟩
          simp only [checkDims, if_neg (not_not_intro hl), if_pos hv]
      · refine ⟨.lengthMismatch d tc.length ec.length, ?_, 0,
          by simp only [List.length_cons]; omega, ?_, Or.inl ⟨rfl, hl⟩⟩
        · simp only [checkDims, if_pos hl]
        · simp only [List.getD_cons_zero]
          intro h; exact hl (by rw [h])

/-- When the dims agree and every coordinate sequence has matching length, a
coordinate-value mismatch makes the loop raise the bare coordinate-mismatch
error naming an axis whose coordinates differ. -/
theorem checkDims_coord :
    ∀ (ds : List String) (tcs ecs : List (List ℚ)),
      tcs.length = ds.length → ecs.length = ds.length →
      (∀ i, (tcs.getD i []).length = (ecs.getD i []).length) → tcs ≠ ecs →
      ∃ i, i < ds.length ∧ tcs.getD i [] ≠ ecs.getD i [] ∧
        checkDims ds tcs ecs = some (.coordMismatch (ds.getD i "")) := by
  intro ds
  induction ds with
  | nil =>
    intro tcs ecs h1 h2 _ hne
    simp only [List.length_nil, List.length_eq_zero] at h1 h2
    exact absurd (h1.trans h2.symm) hne
  | cons d ds ih =>
    intro tcs ecs h1 h2 hlen hne
    match tcs, ecs with
    | tc :: tcs', ec :: ecs' =>
      simp only [List.length_cons, Nat.succ.injEq] at h1 h2
      have hl : tc.length = ec.length := by simpa using hlen 0
      by_cases hv : tc = ec
      · have hne' : tcs' ≠ ecs' := by
          intro h; exact hne (by rw [hv, h])
        have hlen' : ∀ i, (tcs'.getD i []).length = (ecs'.getD i []).length := by
          intro i; simpa using hlen (i + 1)
        obtain ⟨i, hi, hneq, hce⟩ := ih tcs' ecs' h1 h2 hlen' hne'
        refine ⟨i + 1, by simp only [List.length_cons]; omega, by simpa using hneq, ?_⟩
        simp only [checkDims, if_neg (not_not_intro hl), if_neg (not_not_intro hv)]
        simpa using hce
      · refine ⟨0, by simp only [List.length_cons]; omega, by simpa using hv, ?_⟩
        simp only [checkDims, if_neg (not_not_intro hl), if_pos hv, List.getD_cons_zero]

/-- When both inputs are labelled and validation raises, `compute_slabwise_sse`
returns that error. -/
theorem sse_py_error_of_validate (ea ta : NDData) (ed td : List String)
    (ec tc : List (List ℚ)) (normalise : Bool) (axisSet : List ℕ) (e : SseError)
    (h : validateLabels ed td ec tc = some e) :
    compute_slabwise_sse_py (.labeled ea ed ec) (.labeled ta td tc)
      normalise axisSet = .error e := by
  simp only [compute_slabwise_sse_py, h]

/-- C7 (amended): when both tensors are labelled, any mismatch in axis names,
coordinate-sequence lengths, or coordinate values makes `compute_slabwise_sse`
raise a `ValueError`: an axis-name mismatch reports the two dims tuples (not
a single offending axis); a coordinate mismatch raises an error recording an
axis whose coordinates genuinely differ, with the two lengths when they
differ, and as a bare coordinate mismatch naming only the axis when the
lengths agree; in particular, with matching names and lengths, a
coordinate-value mismatch always raises an error whose message interpolates
the offending axis name (and nothing about the two value sets). -/
theorem slabwise_sse_validation_errors (ea ta : NDData) (ed td : List String)
    (ec tc : List (List ℚ)) (normalise : Bool) (axisSet : List ℕ)
    (hec : ec.length = ed.length) (htc : tc.length = td.length) :
    (ed ≠ td → compute_slabwise_sse_py (.labeled ea ed ec) (.labeled ta td tc)
        normalise axisSet = .error (.dimsMismatch ed td)) ∧
    (ed = td → tc ≠ ec →
      ∃ e, compute_slabwise_sse_py (.labeled ea ed ec) (.labeled ta td tc)
          normalise axisSet = .error e ∧
        ∃ i, i < ed.length ∧ tc.getD i [] ≠ ec.getD i [] ∧
          ((e = .lengthMismatch (ed.getD i "") (tc.getD i []).length
              (ec.getD i []).length ∧
            (tc.getD i []).length ≠ (ec.getD i []).length) ∨
          (e = .coordMismatch (ed.getD i "") ∧
            (tc.getD i []).length = (ec.getD i []).length))) ∧
    (ed = td → (∀ i, (tc.getD i []).length = (ec.getD i []).length) → tc ≠ ec →
      ∃ i, i < ed.length ∧ tc.getD i [] ≠ ec.getD i [] ∧
        compute_slabwise_sse_py (.labeled ea ed ec) (.labeled ta td tc)
          normalise axisSet = .error (.coordMismatch (ed.getD i "")) ∧
        ∃ post, sseErrorMessage (.coordMismatch (ed.getD i "")) =
          "The dimension " ++ ed.getD i "" ++ post) := by
  refine ⟨?_, ?_, ?_⟩
  · intro hne
    apply sse_py_error_of_validate
    rw [validateLabels, if_pos hne]
  · intro heq hne
    subst heq
    obtain ⟨e, hce, i, hi, hneq, hdisj⟩ :=
      checkDims_spec ed tc ec htc hec hne
    refine ⟨e, ?_, i, hi, hneq, hdisj⟩
    apply sse_py_error_of_validate
    rw [validateLabels, if_neg (not_not_intro rfl)]
    exact hce
  · intro heq hlen hne
    subst heq
    obtain ⟨i, hi, hneq, hce⟩ := checkDims_coord ed tc ec htc hec hlen hne
    refine ⟨i, hi, hneq, ?_, ?_⟩
    · apply sse_py_error_of_validate
      rw [validateLabels, if_neg (not_not_intro rfl)]
      exact hce
    · exact ⟨" has different coordinates for the true and estimated tensor.", rfl⟩

/-- Witness for the validation theorem: axis "sample" with true coordinates
`[1,2,3]` against estimated coordinates `[1,2,4]` raises the coordinate
mismatch naming "sample". -/
theorem slabwise_sse_validation_errors_witness :
    ([[(1 : ℚ), 2, 4]].length = ["sample"].length) ∧
    ([[(1 : ℚ), 2, 3]].length = ["sample"].length) ∧
    (∀ i, (([[(1 : ℚ), 2, 3]].getD i []).length =
      ([[(1 : ℚ), 2, 4]].getD i []).length)) ∧
    [[(1 : ℚ), 2, 3]] ≠ [[(1 : ℚ), 2, 4]] ∧
    (∃ i, i < ["sample"].length ∧
      [[(1 : ℚ), 2, 3]].getD i [] ≠ [[(1 : ℚ), 2, 4]].getD i [] ∧
      compute_slabwise_sse_py
          (.labeled ⟨[3], fun _ => 0⟩ ["sample"] [[(1 : ℚ), 2, 4]])
          (.labeled ⟨[3], fun _ => 0⟩ ["sample"] [[(1 : ℚ), 2, 3]]) true [0] =
        .error (.coordMismatch (["sample"].getD i "")) ∧
      ∃ post, sseErrorMessage (.coordMismatch (["sample"].getD i "")) =
        "The dimension " ++ ["sample"].getD i "" ++ post) := by
  have hlen : ∀ i, (([[(1 : ℚ), 2, 3]].getD i []).length =
      ([[(1 : ℚ), 2, 4]].getD i []).length) := by
    intro i
    match i with
    | 0 => rfl
    | i + 1 => rfl
  have hne : [[(1 : ℚ), 2, 3]] ≠ [[(1 : ℚ), 2, 4]] := by decide
  exact ⟨rfl, rfl, hlen, hne,
    (slabwise_sse_validation_errors ⟨[3], fun _ => 0⟩ ⟨[3], fun _ => 0⟩
      ["sample"] ["sample"] [[(1 : ℚ), 2, 4]] [[(1 : ℚ), 2, 3]] true [0]
      rfl rfl).2.2 rfl hlen hne⟩

/-- C7 counterexample: two runs whose mismatching coordinate value sets differ
(`[1,2,3]` vs `[1,2,4]`, and `[8,9,10]` vs `[8,9,11]`) raise errors carrying
the same payload and therefore the same message; the coordinate-mismatch
message interpolates only the axis name, so it does not name the two value
sets as the claim requires of every mismatch error. -/
theorem slabwise_sse_coord_message_constant :
    compute_slabwise_sse_py (.labeled ⟨[3], fun _ => 0⟩ ["sample"] [[(1 : ℚ), 2, 4]])
        (.labeled ⟨[3], fun _ => 0⟩ ["sample"] [[(1 : ℚ), 2, 3]]) true [0] =
      .error (.coordMismatch "sample") ∧
    compute_slabwise_sse_py (.labeled ⟨[3], fun _ => 0⟩ ["sample"] [[(8 : ℚ), 9, 11]])
        (.labeled ⟨[3], fun _ => 0⟩ ["sample"] [[(8 : ℚ), 9, 10]]) true [0] =
      .error (.coordMismatch "sample") ∧
    sseErrorMessage (.coordMismatch "sample") =
      "The dimension sample has different coordinates for the true and estimated tensor." ∧
    [[(1 : ℚ), 2, 3]] ≠ [[(8 : ℚ), 9, 10]] := by
  exact ⟨rfl, rfl, by decide, by decide⟩

/-- C8 (amended): a successful `compute_slabwise_sse` call returns a labelled
result iff at least one input is an xarray (not iff the true tensor is one):
when the true tensor is labelled the result carries the name "Slabwise SSE"
and the true tensor's kept dims and coordinates, and when only the estimated
tensor is labelled the result is labelled too, carrying the estimated
tensor's kept dims and coordinates. -/
theorem slabwise_sse_output_labelling (est tru : PyTensor) (normalise : Bool)
    (axisSet : List ℕ) (s : SseResult)
    (hok : compute_slabwise_sse_py est tru normalise axisSet = .ok s) :
    (s.isLabeled = (isXarray est || isXarray tru)) ∧
    (∀ ta td tc, tru = .labeled ta td tc →
      s = .labeled (slabwiseSseND axisSet normalise est.data ta) sseName
        (keptList axisSet 0 td) (keptList axisSet 0 tc)) ∧
    (∀ ea ed ec ta, est = .labeled ea ed ec → tru = .raw ta →
      s = .labeled (slabwiseSseND axisSet normalise ea ta) sseName
        (keptList axisSet 0 ed) (keptList axisSet 0 ec)) := by
  cases est with
  | raw ea =>
    cases tru with
    | raw ta =>
      simp only [compute_slabwise_sse_py] at hok
      split at hok
      · simp at hok
      · simp only [Except.ok.injEq] at hok
        subst hok
        refine ⟨rfl, ?_, ?_⟩
        · intro ta' td' tc' h; cases h
        · intro ea' ed' ec' ta' h _; cases h
    | labeled ta td tc =>
      simp only [compute_slabwise_sse_py] at hok
      split at hok
      · simp at hok
      · simp only [Except.ok.injEq] at hok
        subst hok
        refine ⟨rfl, ?_, ?_⟩
        · intro ta' td' tc' h
          injection h with h1 h2 h3
          subst h1; subst h2; subst h3
          rfl
        · intro ea' ed' ec' ta' h _; cases h
  | labeled ea ed ec =>
    cases tru with
    | raw ta =>
      simp only [compute_slabwise_sse_py] at hok
      split at hok
      · simp at hok
      · simp only [Except.ok.injEq] at hok
        subst hok
        refine ⟨rfl, ?_, ?_⟩
        · intro ta' td' tc' h; cases h
        · intro ea' ed' ec' ta' h h2
          injection h with h1 h2' h3
          injection h2 with h4
          subst h1; subst h2'; subst h3; subst h4
          rfl
    | labeled ta td tc =>
      simp only [compute_slabwise_sse_py] at hok
      cases hval : validateLabels ed td ec tc with
      | some e =>
        simp only [hval] at hok
        exact Except.noConfusion hok
      | none =>
        simp only [hval] at hok
        split at hok
        · simp at hok
        · simp only [Except.ok.injEq] at hok
          subst hok
          refine ⟨rfl, ?_, ?_⟩
          · intro ta' td' tc' h
            injection h with h1 h2 h3
            subst h1; subst h2; subst h3
            rfl
          · intro ea' ed' ec' ta' _ h2; cases h2

/-- Witness for the output-labelling theorem at a concrete pair of identical
labelled tensors. -/
theorem slabwise_sse_output_labelling_witness :
    compute_slabwise_sse_py (.labeled ⟨[2], fun _ => 1⟩ ["s"] [[(5 : ℚ), 6]])
        (.labeled ⟨[2], fun _ => 1⟩ ["s"] [[(5 : ℚ), 6]]) true [0] =
      .ok (.labeled (slabwiseSseND [0] true ⟨[2], fun _ => 1⟩ ⟨[2], fun _ => 1⟩)
        sseName (keptList [0] 0 ["s"]) (keptList [0] 0 [[(5 : ℚ), 6]])) ∧
    ((SseResult.isLabeled (.labeled
        (slabwiseSseND [0] true ⟨[2], fun _ => 1⟩ ⟨[2], fun _ => 1⟩)
        sseName (keptList [0] 0 ["s"]) (keptList [0] 0 [[(5 : ℚ), 6]])) =
      (isXarray (.labeled ⟨[2], fun _ => 1⟩ ["s"] [[(5 : ℚ), 6]]) ||
        isXarray (.labeled ⟨[2], fun _ => 1⟩ ["s"] [[(5 : ℚ), 6]]))) ∧
      (∀ ta td tc, (.labeled ⟨[2], fun _ => 1⟩ ["s"] [[(5 : ℚ), 6]] : PyTensor)
          = .labeled ta td tc →
        (.labeled (slabwiseSseND [0] true ⟨[2], fun _ => 1⟩ ⟨[2], fun _ => 1⟩)
          sseName (keptList [0] 0 ["s"]) (keptList [0] 0 [[(5 : ℚ), 6]]) : SseResult)
          = .labeled (slabwiseSseND [0] true
              (PyTensor.data (.labeled ⟨[2], fun _ => 1⟩ ["s"] [[(5 : ℚ), 6]])) ta)
            sseName (keptList [0] 0 td) (keptList [0] 0 tc)) ∧
      (∀ ea ed ec ta, (.labeled ⟨[2], fun _ => 1⟩ ["s"] [[(5 : ℚ), 6]] : PyTensor)
          = .labeled ea ed ec →
        (.labeled ⟨[2], fun _ => 1⟩ ["s"] [[(5 : ℚ), 6]] : PyTensor) = .raw ta →
        (.labeled (slabwiseSseND [0] true ⟨[2], fun _ => 1⟩ ⟨[2], fun _ => 1⟩)
          sseName (keptList [0] 0 ["s"]) (keptList [0] 0 [[(5 : ℚ), 6]]) : SseResult)
          = .labeled (slabwiseSseND [0] true ea ta) sseName
            (keptList [0] 0 ed) (keptList [0] 0 ec))) := by
  have hok : compute_slabwise_sse_py
      (.labeled ⟨[2], fun _ => 1⟩ ["s"] [[(5 : ℚ), 6]])
      (.labeled ⟨[2], fun _ => 1⟩ ["s"] [[(5 : ℚ), 6]]) true [0] =
      .ok (.labeled (slabwiseSseND [0] true ⟨[2], fun _ => 1⟩ ⟨[2], fun _ => 1⟩)
        sseName (keptList [0] 0 ["s"]) (keptList [0] 0 [[(5 : ℚ), 6]])) := rfl
  exact ⟨hok, slabwise_sse_output_labelling _ _ _ _ _ hok⟩

/-- C8 counterexample: a labelled estimated tensor with a raw true tensor
yields a labelled result (the subtraction is an xarray whenever either
operand is), contradicting the claim that the output is a bare numeric array
whenever the true tensor is unlabelled. -/
theorem slabwise_sse_labelled_output_with_raw_true :
    (compute_slabwise_sse_py (.labeled ⟨[2], fun _ => 0⟩ ["sample"] [[(10 : ℚ), 20]])
        (.raw ⟨[2], fun _ => 1⟩) true [0]).map SseResult.isLabeled = .ok true ∧
    isXarray (.raw ⟨[2], fun _ => 1⟩) = false := by
  exact ⟨rfl, rfl⟩

/-! ## `compute_leverage` wrapper and `compute_outlier_info` (lines 94-185) -/

/-- A factor matrix argument of `compute_leverage`: an `n x r` matrix over
`ℚ`, optionally carrying a DataFrame row index. -/
structure FMatrix where
  rows : ℕ
  cols : ℕ
  vals : Matrix (Fin rows) (Fin cols) ℚ
  lab : Option (List ℚ)

/-- A TensorLy-style CP tensor (`cp_tensor`): weights plus one factor matrix
per mode. -/
structure CPTensor where
  weights : List ℚ
  factors : List FMatrix

/-- The result of `compute_leverage` (lines 94-137): a raw vector, or a
one-column DataFrame carrying the factor matrix's index and the column name
"Leverage score" (line 135). -/
inductive LevResult where
  | raw (v : List ℚ)
  | labeled (idx : List ℚ) (col : String) (v : List ℚ)

/-- Whether the leverage result is a DataFrame. -/
def LevResult.isLabeled : LevResult → Bool
  | .raw _ => false
  | .labeled _ _ _ => true

/-- `numpy.linalg.LinAlgError`, raised by `np.linalg.solve` at line 15 when
its matrix argument is singular. -/
inductive LinAlgError where
  | singularMatrix
deriving DecidableEq

/-- Embedding of the public `compute_leverage` (lines 94-137): over the exact
field `ℚ`, `np.linalg.solve(AᵀA, Aᵀ)` raises `LinAlgError` exactly when
`det(AᵀA) = 0`; otherwise the numeric core is applied to the values and the
result is wrapped as a DataFrame when the input carries an index. -/
def compute_leverage_py (fm : FMatrix) : Except LinAlgError LevResult :=
  if (fm.valsᵀ * fm.vals).det = 0 then .error .singularMatrix
  else
    let lev := List.ofFn (compute_leverage fm.vals)
    match fm.lab with
    | some idx => .ok (.labeled idx leverageName lev)
    | none => .ok (.raw lev)

/-- `cp_tensor[1][axis]` (line 164); out-of-range `axis` would raise
`IndexError` in Python, which no claim exercises. -/
def factorAt (cp : CPTensor) (axis : ℕ) : FMatrix :=
  cp.factors.getD axis ⟨0, 0, 0, none⟩

/-- One-dimensional view of an ndarray: its entries in enumeration order. -/
def ndToList (a : NDData) : List ℚ := (tuples a.shape).map a.val

/-- Failures of `compute_outlier_info`: a `LinAlgError` propagated from the
leverage computation of line 164, a propagated `compute_slabwise_sse` error,
the labelling-consistency `ValueError` of lines 173-177, the index-mismatch
`ValueError` of lines 180-181 (pandas also raises there when the two index
lengths differ), or the pandas `ValueError` raised when the dict-of-columns
frame of line 179 gets columns of different lengths. -/
inductive OutlierError where
  | linAlgError (e : LinAlgError)
  | sseError (e : SseError)
  | inconsistentLabels
  | indexMismatch
  | columnLengthMismatch

/-- The two-column result table; `index = none` models the default positional
`RangeIndex`. -/
structure OutlierTable where
  index : Option (List ℚ)
  columns : List String
  leverageCol : List ℚ
  sseCol : List ℚ

/-- Embedding of `compute_outlier_info` (lines 140-185), parameterised by the
external collaborator `construct_cp_tensor` (imported from `factor_tools`,
outside this module).  The leverage of the chosen mode's factor matrix is
computed first (line 164), so a `LinAlgError` from a singular `AᵀA`
propagates before the reconstruction and SSE steps.  A labelled slabwise SSE
is converted to a DataFrame via `.to_series()` (line 169), keyed by the kept
axis's coordinates (the head of the kept-coords list, since a single `axis`
is passed); both success paths build a table with columns
`["Leverage score", "Slabwise SSE"]` (lines 179 and 183-184). -/
def compute_outlier_info_py (construct : CPTensor → PyTensor) (cp : CPTensor)
    (tru : PyTensor) (normalise_sse : Bool) (axis : ℕ) :
    Except OutlierError OutlierTable :=
  match compute_leverage_py (factorAt cp axis) with
  | .error e => .error (.linAlgError e)
  | .ok leverage =>
  match compute_slabwise_sse_py (construct cp) tru normalise_sse [axis] with
  | .error e => .error (.sseError e)
  | .ok slab =>
    match leverage, slab with
    | .labeled _ _ _, .raw _ => .error .inconsistentLabels
    | .raw _, .labeled _ _ _ _ => .error .inconsistentLabels
    | .raw lv, .raw sa =>
      if lv.length = (ndToList sa).length then
        .ok ⟨none, [leverageName, sseName], lv, ndToList sa⟩
      else .error .columnLengthMismatch
    | .labeled li _ lv, .labeled sa _ _ kc =>
      if kc.headD [] = li then
        .ok ⟨some li, [leverageName, sseName], lv, ndToList sa⟩
      else .error .indexMismatch

/-- `keptList` of a singleton axis set is empty once the position has passed
the axis. -/
theorem keptList_nil_of_lt {α : Type} (axis : ℕ) :
    ∀ (xs : List α) (pos : ℕ), axis < pos → keptList [axis] pos xs = [] := by
  intro xs
  induction xs with
  | nil => intro pos _; rfl
  | cons x xs ih =>
    intro pos h
    simp only [keptList]
    rw [if_neg (by simp only [List.mem_singleton]; omega), ih (pos + 1) (by omega)]

/-- `keptList` of a singleton axis set keeps exactly the entry at that axis. -/
theorem keptList_singleton (axis : ℕ) :
    ∀ (xs : List ℕ) (pos : ℕ), pos ≤ axis → axis - pos < xs.length →
      keptList [axis] pos xs = [xs.getD (axis - pos) 0] := by
  intro xs
  induction xs with
  | nil => intro pos _ h2; simp only [List.length_nil] at h2; omega
  | cons x xs ih =>
    intro pos h1 h2
    simp only [keptList]
    by_cases he : pos = axis
    · rw [if_pos (by simp [he])]
      rw [keptList_nil_of_lt axis xs (pos + 1) (by omega)]
      have h0 : axis - pos = 0 := by omega
      rw [h0, List.getD_cons_zero]
    · rw [if_neg (by simp only [List.mem_singleton]; omega)]
      rw [ih (pos + 1) (by omega) (by simp only [List.length_cons] at h2; omega)]
      have hs : axis - pos = (axis - (pos + 1)) + 1 := by omega
      rw [hs, List.getD_cons_succ]

/-- The SSE output over a single in-range kept axis has as many entries as
that axis is long. -/
theorem tuples_kept_length (axis : ℕ) (shape : List ℕ) (h : axis < shape.length) :
    (tuples (keptList [axis] 0 shape)).length = shape.getD axis 0 := by
  rw [keptList_singleton axis shape 0 (by omega) (by omega), tuples_length]
  simp

/-- C3 counterexample: an unlabelled decomposition that is dimensionally
compatible with the unlabelled dataset but whose chosen-mode factor matrix is
the 2 by 1 zero matrix makes `np.linalg.solve` raise `LinAlgError` at line 15
(`AᵀA = [[0]]` is singular), so `compute_outlier_info` fails instead of
returning the table the claim promises for every such input. -/
theorem outlier_info_singular_factor_fails :
    compute_outlier_info_py (fun _ => .raw ⟨[2], fun _ => 0⟩)
      ⟨[1], [⟨2, 1, fun _ _ => 0, none⟩]⟩ (.raw ⟨[2], fun _ => 0⟩) true 0 =
      .error (.linAlgError .singularMatrix) ∧
    (factorAt ⟨[1], [⟨2, 1, fun _ _ => 0, none⟩]⟩ 0).lab = none ∧
    ((⟨[2], fun _ => 0⟩ : NDData).shape = (⟨[2], fun _ => 0⟩ : NDData).shape) ∧
    (factorAt ⟨[1], [⟨2, 1, fun _ _ => 0, none⟩]⟩ 0).rows =
      (⟨[2], fun _ => 0⟩ : NDData).shape.getD 0 0 := by
  refine ⟨?_, rfl, rfl, rfl⟩
  have hdet : ((factorAt (⟨[1], [⟨2, 1, fun _ _ => 0, none⟩]⟩ : CPTensor) 0).valsᵀ *
      (factorAt (⟨[1], [⟨2, 1, fun _ _ => 0, none⟩]⟩ : CPTensor) 0).vals).det = 0 := by
    simp [factorAt, Matrix.det_fin_one, Matrix.mul_apply, Matrix.transpose_apply]
  simp only [compute_outlier_info_py, compute_leverage_py]
  rw [if_pos hdet]

/-- C3 (amended): with an unlabelled decomposition whose reconstruction is an
unlabelled, dimensionally compatible array, an unlabelled dataset, and a
chosen-mode factor matrix whose `AᵀA` is invertible (full column rank, so the
leverage solve of line 15 does not raise), `compute_outlier_info` succeeds
with a positionally keyed table whose length is the size of the chosen mode;
moreover every successful call whatsoever returns exactly the columns
["Leverage score", "Slabwise SSE"] in that order. -/
theorem outlier_info_unlabelled_table :
    (∀ (construct : CPTensor → PyTensor) (cp : CPTensor) (estA truA : NDData)
        (normalise_sse : Bool) (axis : ℕ),
      construct cp = .raw estA →
      (factorAt cp axis).lab = none →
      ((factorAt cp axis).valsᵀ * (factorAt cp axis).vals).det ≠ 0 →
      estA.shape = truA.shape →
      axis < truA.shape.length →
      (factorAt cp axis).rows = truA.shape.getD axis 0 →
      ∃ t, compute_outlier_info_py construct cp (.raw truA) normalise_sse axis =
          .ok t ∧
        t.index = none ∧
        t.columns = [leverageName, sseName] ∧
        t.leverageCol.length = truA.shape.getD axis 0 ∧
        t.sseCol.length = truA.shape.getD axis 0) ∧
    (∀ (construct : CPTensor → PyTensor) (cp : CPTensor) (tru : PyTensor)
        (normalise_sse : Bool) (axis : ℕ) (t : OutlierTable),
      compute_outlier_info_py construct cp tru normalise_sse axis = .ok t →
      t.columns = [leverageName, sseName]) := by
  constructor
  · intro construct cp estA truA normalise_sse axis hcon hlab hdet hsh hax hrows
    have hs : compute_slabwise_sse_py (construct cp) (.raw truA) normalise_sse
        [axis] = .ok (.raw (slabwiseSseND [axis] normalise_sse estA truA)) := by
      rw [hcon]
      simp only [compute_slabwise_sse_py, PyTensor.data]
      rw [if_neg (not_not_intro hsh)]
    have hlev : compute_leverage_py (factorAt cp axis) =
        .ok (.raw (List.ofFn (compute_leverage (factorAt cp axis).vals))) := by
      simp only [compute_leverage_py, hlab]
      rw [if_neg hdet]
    have hshape : (slabwiseSseND [axis] normalise_sse estA truA).shape =
        keptList [axis] 0 truA.shape := by
      cases normalise_sse <;> rfl
    have hlen2 : (ndToList (slabwiseSseND [axis] normalise_sse estA truA)).length =
        truA.shape.getD axis 0 := by
      rw [ndToList, List.length_map, hshape, tuples_kept_length axis truA.shape hax]
    have hlen1 : (List.ofFn (compute_leverage (factorAt cp axis).vals)).length =
        truA.shape.getD axis 0 := by
      rw [List.length_ofFn]; exact hrows
    refine ⟨⟨none, [leverageName, sseName],
      List.ofFn (compute_leverage (factorAt cp axis).vals),
      ndToList (slabwiseSseND [axis] normalise_sse estA truA)⟩,
      ?_, rfl, rfl, hlen1, hlen2⟩
    simp only [compute_outlier_info_py, hs, hlev]
    rw [if_pos (hlen1.trans hlen2.symm)]
  · intro construct cp tru normalise_sse axis t hok
    simp only [compute_outlier_info_py] at hok
    split at hok
    · exact Except.noConfusion hok
    · split at hok
      · exact Except.noConfusion hok
      · split at hok <;>
          first
            | exact Except.noConfusion hok
            | (split at hok <;>
                first
                  | (simp only [Except.ok.injEq] at hok; subst hok; rfl)
                  | exact Except.noConfusion hok)

/-- Witness for the unlabelled-table theorem: a one-mode decomposition with a
full-column-rank 2 by 1 raw factor matrix (`AᵀA = [[2]]`) against a length-2
raw dataset. -/
theorem outlier_info_unlabelled_table_witness :
    ((fun _ => .raw ⟨[2], fun _ => 1⟩) (⟨[1], [⟨2, 1, fun _ _ => 1, none⟩]⟩ : CPTensor)
        = PyTensor.raw ⟨[2], fun _ => 1⟩) ∧
    (factorAt ⟨[1], [⟨2, 1, fun _ _ => 1, none⟩]⟩ 0).lab = none ∧
    ((factorAt (⟨[1], [⟨2, 1, fun _ _ => 1, none⟩]⟩ : CPTensor) 0).valsᵀ *
      (factorAt (⟨[1], [⟨2, 1, fun _ _ => 1, none⟩]⟩ : CPTensor) 0).vals).det ≠ 0 ∧
    ((⟨[2], fun _ => 1⟩ : NDData).shape = (⟨[2], fun _ => 0⟩ : NDData).shape) ∧
    0 < (⟨[2], fun _ => 0⟩ : NDData).shape.length ∧
    (factorAt ⟨[1], [⟨2, 1, fun _ _ => 1, none⟩]⟩ 0).rows =
      (⟨[2], fun _ => 0⟩ : NDData).shape.getD 0 0 ∧
    ∃ t, compute_outlier_info_py (fun _ => .raw ⟨[2], fun _ => 1⟩)
        ⟨[1], [⟨2, 1, fun _ _ => 1, none⟩]⟩ (.raw ⟨[2], fun _ => 0⟩) true 0 = .ok t ∧
      t.index = none ∧
      t.columns = [leverageName, sseName] ∧
      t.leverageCol.length = (⟨[2], fun _ => 0⟩ : NDData).shape.getD 0 0 ∧
      t.sseCol.length = (⟨[2], fun _ => 0⟩ : NDData).shape.getD 0 0 := by
  have hdet : ((factorAt (⟨[1], [⟨2, 1, fun _ _ => 1, none⟩]⟩ : CPTensor) 0).valsᵀ *
      (factorAt (⟨[1], [⟨2, 1, fun _ _ => 1, none⟩]⟩ : CPTensor) 0).vals).det = 2 := by
    simp [factorAt, Matrix.det_fin_one, Matrix.mul_apply, Matrix.transpose_apply,
      Fin.sum_univ_two]
  refine ⟨rfl, rfl, by rw [hdet]; norm_num, rfl, by decide, rfl, ?_⟩
  exact outlier_info_unlabelled_table.1 (fun _ => .raw ⟨[2], fun _ => 1⟩)
    ⟨[1], [⟨2, 1, fun _ _ => 1, none⟩]⟩ ⟨[2], fun _ => 1⟩ ⟨[2], fun _ => 0⟩ true 0
    rfl rfl (by rw [hdet]; norm_num) rfl (by decide) rfl

end ComponentVis
